import Mathlib

/-!
Verification of the Anvil2 chunk codec from
`amulet/world_interface/chunk/interfaces/anvil2/anvil2_interface.py`.

The Python source is shallowly embedded: numpy arrays become nested `List`s,
Python dicts become association lists, raised exceptions become `Except`
values, and NBT tag trees become a small inductive `Tag` type.  Code of the
repository that is not under `src/` (the `Block` class ordering used by
`numpy.unique` on object arrays, and the bit packing helpers
`decode_long_array` / `encode_long_array` from `amulet.utils.world_utils`)
is modelled from the specification, as marked in the doc comments below.
-/

namespace Anvil2

/-- Errors a decode or encode call can raise.  `keyError` is a Python
`KeyError` from a missing dict/compound key, `valueError` the unpacking
error raised when a palette entry name has no `:` separator,
`notImplemented` the `NotImplementedError` for chunks with no sections,
`indexError` a numpy out-of-range index, and `truncatedInput` the failure
of unpacking a long array that is too short. -/
inductive DErr where
  | keyError (field : String)
  | valueError
  | notImplemented
  | indexError
  | truncatedInput
  deriving DecidableEq

/-- A block descriptor: `amulet.api.block.Block` (namespace, base name,
properties).  The class itself lives outside `src/`; per the spec (§3) it is
an immutable triple whose equality is structural, with the property mapping
compared by content.  Properties are carried as an association list; the
content comparison is `eqBlock` below. -/
structure Block where
  ns : String
  baseName : String
  properties : List (String × String)
  deriving DecidableEq

/-- Insert a property into a key-sorted property list (used only to compare
property mappings by content, the way Python compares dicts). -/
def insProp (p : String × String) : List (String × String) → List (String × String)
  | [] => [p]
  | q :: qs => if p.1 < q.1 then p :: q :: qs else q :: insProp p qs

/-- Key-sorted canonical form of a property mapping. -/
def canonProps (ps : List (String × String)) : List (String × String) :=
  ps.foldr insProp []

/-- Structural equality of two block descriptors: equal namespaces, equal
base names and property mappings with the same content (spec §3). -/
def eqBlock (a b : Block) : Bool :=
  a.ns == b.ns && a.baseName == b.baseName && canonProps a.properties == canonProps b.properties

/-- The implicit air descriptor `Block(namespace="minecraft", base_name="air")`
seeded at palette position 0 by `_decode_blocks`. -/
def airBlock : Block := ⟨"minecraft", "air", []⟩

/-- One entry of an on-disk section `Palette` list: a compound with a
`Name` string and a `Properties` compound of string values.  A missing
`Properties` compound behaves as an empty one (`entry.get("Properties", {})`),
so it is carried directly as a list. -/
structure PEntry where
  name : String
  properties : List (String × String)
  deriving DecidableEq

/-- NBT tags the codec stores or passes through.  Only the shapes the
claims touch are distinguished; everything else rides in the generic
constructors. -/
inductive Tag where
  | byte (n : Int)
  | i32 (n : Int)
  | i64 (n : Int)
  | str (s : String)
  | byteArr (bs : List Nat)
  | intArr (xs : List Int)
  | longArr (xs : List Int)
  | list (ts : List Tag)
  | comp (kvs : List (String × Tag))

/-- One on-disk section record as `_decode_blocks` and `decode` read it.
`Option` fields model dict-key presence; a `none` read through `section[k]`
is a `KeyError`. -/
structure SectionT where
  y : Nat
  palette : Option (List PEntry)
  blockStates : Option (List Nat)
  blockLight : Option Tag
  skyLight : Option Tag

/-- `section[field]`: a missing key raises `KeyError(field)`. -/
def reqField (o : Option α) (field : String) : Except DErr α :=
  match o with
  | some a => .ok a
  | none => .error (.keyError field)

/-- Sequence a fallible function over a list, stopping at the first error
(the way a Python loop propagates the first raised exception). -/
def seqMap (f : α → Except DErr β) : List α → Except DErr (List β)
  | [] => .ok []
  | a :: as => do
    let b ← f a
    let bs ← seqMap f as
    .ok (b :: bs)

/-- `entry["Name"].value.split(":", 1)`: split at the first `:`; a name
without a separator makes the two-variable unpacking raise. -/
def splitNS (s : String) : Option (String × String) :=
  if s.data.contains ':' then
    some (⟨s.data.takeWhile (fun c => c ≠ ':')⟩, ⟨(s.data.dropWhile (fun c => c ≠ ':')).drop 1⟩)
  else none

/-- `Anvil2Interface._decode_palette`: each palette entry's `Name` is split
into namespace and base name and its string properties kept. -/
def _decode_palette (entries : List PEntry) : Except DErr (List Block) :=
  seqMap (fun e =>
    match splitNS e.name with
    | some (n, b) => .ok (⟨n, b, e.properties⟩ : Block)
    | none => .error .valueError) entries

/-- `Anvil2Interface._encode_palette`: every block becomes a compound with
`Name = f"{namespace}:{base_name}"` and its (string-valued) properties. -/
def _encode_palette (blocks : List Block) : List PEntry :=
  blocks.map (fun b => ⟨b.ns ++ ":" ++ b.baseName, b.properties⟩)

/-- Number of bits needed to represent `n`: 0 for 0, `⌊log₂ n⌋ + 1`
otherwise; fuel-driven so it evaluates by kernel reduction. -/
def bitsNeeded : Nat → Nat :=
  fun n => go n n
where
  go : Nat → Nat → Nat
    | 0, _ => 0
    | f + 1, n => if n = 0 then 0 else go f (n / 2) + 1

/-- Split a list into chunks of `n` (the grouping of values into words).
Fuel-driven so the recursion is structural. -/
def chunkFuel : Nat → Nat → List α → List (List α)
  | 0, _, _ => []
  | _, _, [] => []
  | f + 1, n, l => l.take n :: chunkFuel f n (l.drop n)

/-- Split a list into consecutive chunks of length `n`. -/
def chunkList (n : Nat) (l : List α) : List (List α) :=
  chunkFuel l.length n l

/-- The values stored in one 64-bit word, LSB first. -/
def expandWord (bits w : Nat) : List Nat :=
  (List.range (64 / bits)).map (fun j => (w >>> (j * bits)) &&& (2 ^ bits - 1))

/-- Modelled from the spec: `amulet.utils.world_utils.decode_long_array` is
not under `src/`.  Spec §4.1: values are packed LSB-first, a value is never
split across a word boundary, so each word holds `⌊64 / bits⌋` values; the
dynamic width is derived from the array length; too few words to recover
`count` values is a TruncatedInput error and trailing data is ignored. -/
def decode_long_array (words : List Nat) (count : Nat) : Except DErr (List Nat) :=
  let bits := max 1 ((64 * words.length) / count)
  let vpw := 64 / bits
  if count ≤ vpw * words.length then
    .ok (((words.map (expandWord bits)).flatten).take count)
  else .error .truncatedInput

/-- Pack one group of at most `⌊64 / bits⌋` values into a word, LSB first. -/
def packWord (bits : Nat) : List Nat → Nat
  | [] => 0
  | v :: vs => v + 2 ^ bits * packWord bits vs

/-- Modelled from the spec: `amulet.utils.world_utils.encode_long_array` is
not under `src/`.  Spec §4.1/§4.3: the width is
`max(4, bits needed for the largest value)` — the largest local palette
index — and values are packed LSB-first without crossing word boundaries;
all values fit in the derived width by construction, so the OutOfRange
branch of the contract cannot fire here. -/
def encode_long_array (vals : List Nat) : List Nat :=
  let bits := max 4 (bitsNeeded (vals.foldr max 0))
  (chunkList (64 / bits) vals).map (packWord bits)

/-- Insert a value into a strictly sorted list, dropping duplicates. -/
def insSorted (x : Nat) : List Nat → List Nat
  | [] => [x]
  | y :: ys =>
    if x < y then x :: y :: ys
    else if x = y then y :: ys
    else y :: insSorted x ys

/-- `numpy.unique` on an integer array: the distinct values in ascending
order. -/
def npUniqueNat (l : List Nat) : List Nat :=
  l.foldr insSorted []

/-- Modelled from the spec: `numpy.unique` on the object array of `Block`s
sorts with the ordering of `amulet.api.block.Block`, which is not under
`src/`.  Spec §4.2 only fixes the content: the deduplicated catalogue of
distinct descriptors (structural equality), in an order the consumer may
not rely on; this model keeps first-appearance order. -/
def dedupBlocks (l : List Block) : List Block :=
  l.foldl (fun acc b => if acc.any (fun a => eqBlock a b) then acc else acc ++ [b]) []

/-- Index of the first structurally equal descriptor (the dedup remap of
spec §4.2, i.e. the `return_inverse` side of `numpy.unique`). -/
def indexOfBlock (u : List Block) (b : Block) : Nat :=
  u.findIdx (fun a => eqBlock a b)

/-- A voxel volume: a dense 3-dimensional array of palette indices. -/
abbrev Vol := List (List (List Nat))

/-- The voxel at position `(x, y, z)` of a volume (0 outside the array). -/
def get3 (v : Vol) (x y z : Nat) : Nat :=
  ((v.getD x []).getD y []).getD z 0

/-- The volume has exactly the shape `a × b × c`. -/
def rect3 (a b c : Nat) (v : Vol) : Bool :=
  (v.length == a) &&
    v.all (fun plane => (plane.length == b) && plane.all (fun row => row.length == c))

/-- Transpose the outer two axes of a nested list (rectangular input), the
meaning of `numpy.swapaxes(a, 0, 1)`. -/
def trans : List (List α) → List (List α)
  | [] => []
  | [r] => r.map (fun a => [a])
  | r :: s :: rs => List.zipWith (fun a row => a :: row) r (trans (s :: rs))

/-- `numpy.swapaxes(a, 0, 1)` on a 3-dimensional nested list. -/
def swapAxes01 (v : List (List (List α))) : List (List (List α)) :=
  trans v

/-- `numpy.swapaxes(a, 0, 2)` on a 3-dimensional nested list:
`out[i][j][k] = a[k][j][i]`, realised as transposes of the outer and the
inner pairs of axes. -/
def swapAxes02 (v : List (List (List α))) : List (List (List α)) :=
  (trans (v.map trans)).map trans

/-- Line 143: `blocks = numpy.swapaxes(blocks.swapaxes(0, 1), 0, 2)` — the
axis reordering from storage order to the public order. -/
def swapStorageToPublic (v : List (List (List α))) : List (List (List α)) :=
  swapAxes02 (swapAxes01 v)

/-- Reshape one decoded 4096-value slab into `(16, 16, 16)` C-order. -/
def to3D (l : List Nat) : List (List (List Nat)) :=
  chunkList 16 (chunkList 16 l)

/-- The slab assignment for height index `yIdx`: the last section written
there (later sections overwrite earlier slices), or the zero-initialised
slab of `numpy.zeros`. -/
def lastAssign (assigns : List (Nat × List Nat)) (yIdx : Nat) : List Nat :=
  ((assigns.reverse.find? (fun p => p.1 == yIdx)).map (fun p => p.2)).getD
    (List.replicate 4096 0)

/-- The storage-ordered `(256, 16, 16)` volume after the section loop:
16 vertically stacked slabs. -/
def buildRaw (assigns : List (Nat × List Nat)) : Vol :=
  ((List.range 16).map (fun yI => to3D (lastAssign assigns yI))).flatten

/-- The section loop of `_decode_blocks` (lines 132–141): skip sections
without a `Palette`; otherwise read `BlockStates` (KeyError if absent),
unpack 4096 values, offset them by the running palette length, record the
slab assignment, then append the decoded local palette. -/
def decodeSecGo : List Block → List (Nat × List Nat) → List SectionT →
    Except DErr (List Block × List (Nat × List Nat))
  | pal, assigns, [] => .ok (pal, assigns)
  | pal, assigns, s :: rest =>
    match s.palette with
    | none => decodeSecGo pal assigns rest
    | some pEntries => do
      let words ← reqField s.blockStates "BlockStates"
      let vals ← decode_long_array words 4096
      if s.y < 16 then
        let locPal ← _decode_palette pEntries
        decodeSecGo (pal ++ locPal) (assigns ++ [(s.y, vals.map (fun v => v + pal.length))]) rest
      else .error .indexError

/-- The `return_inverse` array of line 144: each running-palette position
mapped to the index of its descriptor in the deduplicated palette. -/
def remapInv (palL : List Block) : List Nat :=
  palL.map (fun b => indexOfBlock (dedupBlocks palL) b)

/-- Lines 143–147 of `_decode_blocks`: reorder the stacked storage volume
into public axis order, deduplicate the running palette, and remap every
voxel through the dedup map (`inverse[blocks]`; an index beyond the running
palette is a numpy IndexError). -/
def remapStage (palL : List Block) (assigns : List (Nat × List Nat)) :
    Except DErr (Vol × List Block) :=
  match seqMap (seqMap (seqMap (fun v =>
    if v < (remapInv palL).length then .ok ((remapInv palL).getD v 0) else .error .indexError)))
    (swapStorageToPublic (buildRaw assigns)) with
  | .error e => .error e
  | .ok vol => .ok (vol, dedupBlocks palL)

/-- `Anvil2Interface._decode_blocks`: reject an empty section list, run the
section loop seeded with the air palette, then stack, reorder, deduplicate
and remap via `remapStage`. -/
def _decode_blocks (sections : List SectionT) : Except DErr (Vol × List Block) :=
  if sections.isEmpty then .error .notImplemented
  else
    match decodeSecGo [airBlock] [] sections with
    | .error e => .error e
    | .ok pr => remapStage pr.1 pr.2

/-- `blocks[:, y * 16: y * 16 + 16, :]` — the 16×16×16 slice of the public
volume for slab `y`. -/
def sliceSlab (v : Vol) (y : Nat) : Vol :=
  v.map (fun plane => (plane.drop (y * 16)).take 16)

/-- `.ravel()` of the slab slice: C-order flattening, outer axis first. -/
def ravelSlab (v : Vol) (y : Nat) : List Nat :=
  ((sliceSlab v y).map List.flatten).flatten

/-- One emitted section record before light attachment: `Y`, the packed
`BlockStates` words and the local `Palette`. -/
structure SectionOut where
  y : Nat
  blockStates : List Nat
  palette : List PEntry

/-- The `numpy.unique(..., return_inverse=True)` inverse of line 154: the
slab's values replaced by their positions in the sorted distinct values. -/
def localIdx (v : Vol) (y : Nat) : List Nat :=
  (ravelSlab v y).map (fun a => (npUniqueNat (ravelSlab v y)).findIdx (fun b => b == a))

/-- The body of the `_encode_blocks` loop for one slab `y` (lines 151–163):
flatten the slice, `numpy.unique` it into the sorted distinct global indices
and local indices, look the distinct indices up in the global palette
(IndexError when out of range), serialise them, and omit the section when
the local palette is the single entry named `minecraft:air`. -/
def encodeSlab (v : Vol) (pal : List Block) (y : Nat) : Except DErr (Option SectionOut) :=
  match seqMap (fun i =>
    if h : i < pal.length then .ok (pal.get ⟨i, h⟩) else .error .indexError)
    (npUniqueNat (ravelSlab v y)) with
  | .error e => .error e
  | .ok sel =>
    if (_encode_palette sel).length == 1
        && ((_encode_palette sel).getD 0 ⟨"", []⟩).name == "minecraft:air" then
      .ok none
    else
      .ok (some ⟨y, encode_long_array (localIdx v y), _encode_palette sel⟩)

/-- `Anvil2Interface._encode_blocks`: encode each of the 16 slabs, keeping
only the sections that are not omitted. -/
def _encode_blocks (v : Vol) (pal : List Block) : Except DErr (List SectionOut) :=
  match seqMap (encodeSlab v pal) (List.range 16) with
  | .error e => .error e
  | .ok secs => .ok (secs.filterMap id)

/-- A value of the chunk's auxiliary `misc` bag: either an opaque tag, a
per-slab light dict (`{section["Y"].value: section["BlockLight"]}`), or the
`Heightmaps` compound. -/
inductive MiscVal where
  | tag (t : Tag)
  | lightMap (m : List (Nat × Tag))
  | hmBag (b : List (String × Tag))

/-- The auxiliary bag is a string-keyed Python dict. -/
abbrev Misc := List (String × MiscVal)

/-- Dict lookup in the bag. -/
def miscLookup (misc : Misc) (k : String) : Option MiscVal :=
  (misc.find? (fun p => p.1 == k)).map (fun p => p.2)

/-- `misc.get(k, default)` for a tag-valued entry.  The keys this is used
with only ever hold plain tags, so a non-tag value falls back to the
default. -/
def getMiscTag (misc : Misc) (k : String) (dflt : Tag) : Tag :=
  match miscLookup misc k with
  | some (.tag t) => t
  | _ => dflt

/-- `misc.get(k, {})` for the per-slab light dicts of lines 82–83. -/
def getLightDict (misc : Misc) (k : String) : List (Nat × Tag) :=
  match miscLookup misc k with
  | some (.lightMap m) => m
  | _ => []

/-- `misc.get('HeightmapsC', TAG_Compound())`. -/
def getHmBag (misc : Misc) (k : String) : List (String × Tag) :=
  match miscLookup misc k with
  | some (.hmBag b) => b
  | _ => []

/-- Dict lookup keyed by slab index (`y in block_light` / `block_light[y]`). -/
def lookupNat (m : List (Nat × Tag)) (y : Nat) : Option Tag :=
  (m.find? (fun p => p.1 == y)).map (fun p => p.2)

/-- Dict lookup keyed by name. -/
def lookupStr (l : List (String × Tag)) (k : String) : Option Tag :=
  (l.find? (fun p => p.1 == k)).map (fun p => p.2)

/-- Line 46: `{section['Y'].value: section['BlockLight'] for section in Sections}` —
reading `BlockLight` of every section, present or not. -/
def decodeBlockLightMap (sections : List SectionT) : Except DErr (List (Nat × Tag)) :=
  seqMap (fun s => (reqField s.blockLight "BlockLight").map (fun t => (s.y, t))) sections

/-- Line 47: the same dict comprehension for `SkyLight`. -/
def decodeSkyLightMap (sections : List SectionT) : Except DErr (List (Nat × Tag)) :=
  seqMap (fun s => (reqField s.skyLight "SkyLight").map (fun t => (s.y, t))) sections

/-- An emitted section record after the light-attachment loop. -/
structure SectionFull where
  y : Nat
  blockStates : List Nat
  palette : List PEntry
  blockLight : Tag
  skyLight : Tag

/-- The all-zero 2048-byte array `TAG_Byte_Array(numpy.zeros(2048))`. -/
def zeroLight : Tag := Tag.byteArr (List.replicate 2048 0)

/-- Lines 80–91 of `encode`: for every emitted section, look its slab index
up in `misc.get('BlockLight2048', {})` / `misc.get('SkyLight2048', {})` and
attach the stored array, else the all-zero 2048-byte array. -/
def attachLights (misc : Misc) (secs : List SectionOut) : List SectionFull :=
  secs.map (fun s =>
    { y := s.y
      blockStates := s.blockStates
      palette := s.palette
      blockLight := (lookupNat (getLightDict misc "BlockLight2048") s.y).getD zeroLight
      skyLight := (lookupNat (getLightDict misc "SkyLight2048") s.y).getD zeroLight })

/-- The six named heightmap entries of lines 101–108. -/
def heightmapNames : List String :=
  ["MOTION_BLOCKING", "MOTION_BLOCKING_NO_LEAVES", "OCEAN_FLOOR",
   "OCEAN_FLOOR_WG", "WORLD_SURFACE", "WORLD_SURFACE_WG"]

/-- Lines 99–111 of `encode`: each named heightmap is taken from the bag if
present, else `TAG_Long_Array(numpy.zeros(36, dtype='>i8'))`. -/
def encodeHeightmaps (bag : List (String × Tag)) : List (String × Tag) :=
  heightmapNames.map (fun nm => (nm, (lookupStr bag nm).getD (Tag.longArr (List.replicate 36 0))))

/-- Lines 93–116 of `encode` apart from `Biomes`: every auxiliary `Level`
field is the stashed bag entry when present, else the documented default. -/
def encodeAuxFields (misc : Misc) : List (String × Tag) :=
  [("TileTicks", getMiscTag misc "TileTicksA" (Tag.list [])),
   ("LastUpdate", getMiscTag misc "LastUpdateL" (Tag.i64 0)),
   ("InhabitedTime", getMiscTag misc "InhabitedTimeL" (Tag.i64 0)),
   ("Status", getMiscTag misc "StatusSt" (Tag.str "postprocessed")),
   ("Heightmaps", Tag.comp (encodeHeightmaps (getHmBag misc "HeightmapsC"))),
   ("ToBeTicked", getMiscTag misc "ToBeTickedA" (Tag.list (List.replicate 16 (Tag.list [])))),
   ("PostProcessing", getMiscTag misc "PostProcessingA" (Tag.list (List.replicate 16 (Tag.list [])))),
   ("Structures", getMiscTag misc "StructuresC" (Tag.comp [])),
   ("LiquidTicks", getMiscTag misc "LiquidTicksA" (Tag.list [])),
   ("LiquidsToBeTicked", getMiscTag misc "LiquidsToBeTicked" (Tag.list (List.replicate 16 (Tag.list []))))]

/-- The `Level` compound as `decode` reads it; `Option` models key
presence. -/
structure LevelData where
  xPos : Option Int
  zPos : Option Int
  sections : List SectionT
  tileTicks : Option Tag
  lastUpdate : Option Tag
  biomes : Option Tag
  inhabitedTime : Option Tag
  status : Option Tag
  heightmaps : Option (List (String × Tag))
  toBeTicked : Option Tag
  postProcessing : Option Tag
  structures : Option Tag
  liquidTicks : Option Tag
  liquidsToBeTicked : Option Tag
  entities : Option Tag

/-- The in-memory chunk produced by `decode` (the fields the codec sets:
coordinates, volume, biomes, the auxiliary bag and the always-empty entity
list). -/
structure ChunkRes where
  cx : Int
  cz : Int
  blocks : Vol
  biomes : Tag
  misc : Misc
  entities : List Tag

/-- `Anvil2Interface._decode_entities`: explicitly unimplemented, always
empty. -/
def _decode_entities (_entities : Tag) : List Tag := []

/-- `Anvil2Interface.decode` (lines 36–64): every auxiliary field is read
with a plain `[...]` lookup, in source order, and stashed in the bag; the
decoded blocks and palette are returned alongside. -/
def decode (d : LevelData) : Except DErr (ChunkRes × List Block) := do
  let cx ← reqField d.xPos "xPos"
  let cz ← reqField d.zPos "zPos"
  let (blocks, palette) ← _decode_blocks d.sections
  let blMap ← decodeBlockLightMap d.sections
  let slMap ← decodeSkyLightMap d.sections
  let tt ← reqField d.tileTicks "TileTicks"
  let lu ← reqField d.lastUpdate "LastUpdate"
  let bio ← reqField d.biomes "Biomes"
  let it ← reqField d.inhabitedTime "InhabitedTime"
  let st ← reqField d.status "Status"
  let hm ← reqField d.heightmaps "Heightmaps"
  let tbt ← reqField d.toBeTicked "ToBeTicked"
  let pp ← reqField d.postProcessing "PostProcessing"
  let strs ← reqField d.structures "Structures"
  let lt ← reqField d.liquidTicks "LiquidTicks"
  let ltbt ← reqField d.liquidsToBeTicked "LiquidsToBeTicked"
  let ents ← reqField d.entities "Entities"
  .ok ({ cx := cx, cz := cz, blocks := blocks, biomes := bio,
         misc := [("BlockLight2048BA", .lightMap blMap),
                  ("SkyLight2048BA", .lightMap slMap),
                  ("TileTicksA", .tag tt),
                  ("LastUpdateL", .tag lu),
                  ("InhabitedTimeL", .tag it),
                  ("StatusSt", .tag st),
                  ("HeightmapsC", .hmBag hm),
                  ("ToBeTickedA", .tag tbt),
                  ("PostProcessingA", .tag pp),
                  ("StructuresC", .tag strs),
                  ("LiquidTicksA", .tag lt),
                  ("LiquidsToBeTicked", .tag ltbt)],
         entities := _decode_entities ents }, palette)

/-- The encoded `Level` record (the fields `encode` writes). -/
structure LevelOut where
  xPos : Int
  zPos : Int
  dataVersion : Int
  sections : List SectionFull
  aux : List (String × Tag)
  biomes : Tag
  entities : Tag

/-- `Anvil2Interface.encode` (lines 66–119): encode the blocks, attach the
lights, and fill every auxiliary field from the bag or its default.  The
biome array conversion happens inside the external `Biomes` class and is
passed through here. -/
def encode (c : ChunkRes) (pal : List Block) (maxVer : String × Int) :
    Except DErr LevelOut := do
  let secs ← _encode_blocks c.blocks pal
  .ok { xPos := c.cx, zPos := c.cz, dataVersion := maxVer.2,
        sections := attachLights c.misc secs,
        aux := encodeAuxFields c.misc,
        biomes := c.biomes,
        entities := Tag.list [] }

/-- `Anvil2Interface.is_valid` (lines 28–34). -/
def is_valid (key : String × Int) : Bool :=
  if key.1 ≠ "anvil" then false
  else if key.2 < 1444 then false
  else true

/-! ### Spec-side definition for the local palette ordering

The spec (§4.3) describes the local palette of an emitted section as the
descriptors used in the slab "listed in ascending order of first appearance
during a dedup pass over the slice".  The following two definitions follow
those words, to be compared with what `_encode_blocks` actually emits. -/

/-- First-appearance deduplication of the slab's global indices, following
the spec's words (not the source, which uses `numpy.unique`). -/
def specFirstSeen (l : List Nat) : List Nat :=
  l.foldl (fun acc v => if acc.contains v then acc else acc ++ [v]) []

/-- The local palette as the spec describes it: the descriptors used in the
slab, in order of first appearance. -/
def specLocalPalette (v : Vol) (pal : List Block) (y : Nat) : List PEntry :=
  _encode_palette ((specFirstSeen (ravelSlab v y)).map (fun i => pal.getD i airBlock))

/-! ### Concrete inputs used by witnesses and counterexamples -/

/-- The all-air public volume: every voxel carries palette index 0. -/
def airVolume : Vol := List.replicate 16 (List.replicate 256 (List.replicate 16 0))

/-- A stone descriptor. -/
def stoneBlock : Block := ⟨"minecraft", "stone", []⟩

/-- A dirt descriptor. -/
def dirtBlock : Block := ⟨"minecraft", "dirt", []⟩

/-- A section record with `BlockStates` but no `Palette`. -/
def noPaletteSection : SectionT :=
  { y := 0, palette := none, blockStates := some (List.replicate 256 7),
    blockLight := some (Tag.byteArr (List.replicate 2048 0)),
    skyLight := some (Tag.byteArr (List.replicate 2048 0)) }

/-- A section record with a `Palette` but no `BlockStates`. -/
def noStatesSection : SectionT :=
  { y := 0, palette := some [⟨"minecraft:air", []⟩], blockStates := none,
    blockLight := some (Tag.byteArr (List.replicate 2048 0)),
    skyLight := some (Tag.byteArr (List.replicate 2048 0)) }

/-- A non-zero 2048-byte block-light array. -/
def litLight : Tag := Tag.byteArr (15 :: List.replicate 2047 0)

/-- A section whose decoded light is not all zero. -/
def litSection : SectionT :=
  { y := 0, palette := none, blockStates := none,
    blockLight := some litLight, skyLight := some litLight }

/-- An emitted section record for slab 0 (as `_encode_blocks` would hand to
the light-attachment loop). -/
def plainSectionOut : SectionOut :=
  { y := 0, blockStates := List.replicate 256 0, palette := [⟨"minecraft:air", []⟩] }

/-- A public volume whose slab 0 holds dirt (global index 2) at voxel
(0, 0, 0) and stone (global index 1) everywhere else; dirt first in ravel
order, but with the smaller global index on the stone. -/
def mixedVolume : Vol :=
  ((2 :: List.replicate 15 1) :: List.replicate 255 (List.replicate 16 1)) ::
    List.replicate 15 (List.replicate 256 (List.replicate 16 1))

/-- The global palette for `mixedVolume`. -/
def asdPalette : List Block := [airBlock, stoneBlock, dirtBlock]

/-- A storage-ordered volume with pairwise distinct entries, used to probe
the axis reordering. -/
def probeVolume : Vol :=
  (List.range 256).map (fun i => (List.range 16).map (fun j => (List.range 16).map
    (fun k => i * 256 + j * 16 + k)))

/-- A public volume holding a single non-air voxel (palette index 1) at
public position (x, y, z) = (1, 0, 0); used to trace the round trip. -/
def c3Volume : Vol :=
  List.replicate 256 (List.replicate 16 0) ::
    ((1 :: List.replicate 15 0) :: List.replicate 255 (List.replicate 16 0)) ::
    List.replicate 14 (List.replicate 256 (List.replicate 16 0))

/-! ### Properties stated over the embedding -/

/-- The invariants claimed of every successful `_decode_blocks` result:
every index in the volume is a valid index into the palette, and no two
distinct palette entries are structurally equal. -/
def DecodeInvariants : Except DErr (Vol × List Block) → Prop
  | .error _ => True
  | .ok vp =>
      (∀ plane ∈ vp.1, ∀ row ∈ plane, ∀ i ∈ row, i < vp.2.length) ∧
      List.Pairwise (fun a b => eqBlock a b = false) vp.2

/-- What the emitted local palette of a non-omitted section looks like:
the `numpy.unique`-sorted distinct global indices of the slab, resolved
through the global palette and serialised; the index list is strictly
ascending and holds exactly the indices used in the slab. -/
def LocalPaletteShape (v : Vol) (pal : List Block) (y : Nat) : Prop :=
  match encodeSlab v pal y with
  | .ok (some sec) =>
      sec.palette
        = _encode_palette ((npUniqueNat (ravelSlab v y)).map (fun i => pal.getD i airBlock)) ∧
      List.Chain' (fun a b => a < b) (npUniqueNat (ravelSlab v y)) ∧
      (∀ i, i ∈ npUniqueNat (ravelSlab v y) ↔ i ∈ ravelSlab v y)
  | _ => True

/-- The field-presence contract of `decode`: when it succeeds, every
auxiliary `Level` field it extracts was present in the input (nothing was
defaulted), including per-section `BlockLight` / `SkyLight`. -/
def DecodeRequiresFields (d : LevelData) : Prop :=
  match decode d with
  | .error _ => True
  | .ok _ =>
      d.tileTicks.isSome ∧ d.lastUpdate.isSome ∧ d.biomes.isSome ∧
      d.inhabitedTime.isSome ∧ d.status.isSome ∧ d.heightmaps.isSome ∧
      d.toBeTicked.isSome ∧ d.postProcessing.isSome ∧ d.structures.isSome ∧
      d.liquidTicks.isSome ∧ d.liquidsToBeTicked.isSome ∧ d.entities.isSome ∧
      ∀ s ∈ d.sections, s.blockLight.isSome ∧ s.skyLight.isSome


/-! ## General lemmas -/

theorem replicate_ne_cons_of_head {a : Nat} (n : Nat) (h : a ≠ 0) :
    (a :: List.replicate n 0) ≠ List.replicate (n + 1) 0 := by
  intro he
  rw [List.replicate_succ] at he
  exact h (List.cons_eq_cons.mp he).1

/-! ## C8 -/

/-- C8 (confirmed): the applicability check accepts a (format, version) key
iff the format tag is `"anvil"` and the version is at least 1444; anything
else yields `false`. -/
theorem is_valid_iff (t : String) (v : Int) :
    is_valid (t, v) = true ↔ (t = "anvil" ∧ 1444 ≤ v) := by
  unfold is_valid
  by_cases h : t = "anvil" <;> simp [h]

/-! ## C6 -/

/-- C6 (counterexample): with an empty pass-through bag, the emitted
`MOTION_BLOCKING` heightmap is an all-zero array of length 36, not 37. -/
theorem missing_heightmap_is_36_long :
    lookupStr (encodeHeightmaps []) "MOTION_BLOCKING"
      = some (Tag.longArr (List.replicate 36 0)) ∧
    (List.replicate 36 (0 : Int)).length ≠ 37 := by
  exact ⟨rfl, by simp⟩

/-- C6 (corrected): each of the six named heightmap entries is emitted as
the bag's entry when the key is present, and as an all-zero int64 array of
length 36 (not 37) when absent. -/
theorem heightmap_passthrough_or_zero36 (bag : List (String × Tag)) (nm : String)
    (h : nm ∈ heightmapNames) :
    lookupStr (encodeHeightmaps bag) nm
      = some ((lookupStr bag nm).getD (Tag.longArr (List.replicate 36 0))) := by
  fin_cases h <;> rfl

/-- Witness for `heightmap_passthrough_or_zero36` at a bag holding a
`WORLD_SURFACE` entry. -/
theorem heightmap_passthrough_or_zero36_witness :
    "WORLD_SURFACE" ∈ heightmapNames ∧
    lookupStr (encodeHeightmaps [("WORLD_SURFACE", Tag.i64 5)]) "WORLD_SURFACE"
      = some (Tag.i64 5) := by
  refine ⟨by decide, ?_⟩
  have := heightmap_passthrough_or_zero36 [("WORLD_SURFACE", Tag.i64 5)] "WORLD_SURFACE" (by decide)
  rw [this]
  rfl

/-! ## C1 -/

/-- The auxiliary bag exactly as `decode` builds it for `litSection` (the
chunk whose only section carries non-zero light data). -/
def litMisc : Misc :=
  [("BlockLight2048BA", .lightMap [(0, litLight)]),
   ("SkyLight2048BA", .lightMap [(0, litLight)]),
   ("TileTicksA", .tag (Tag.list [])),
   ("LastUpdateL", .tag (Tag.i64 0)),
   ("InhabitedTimeL", .tag (Tag.i64 0)),
   ("StatusSt", .tag (Tag.str "postprocessed")),
   ("HeightmapsC", .hmBag []),
   ("ToBeTickedA", .tag (Tag.list [])),
   ("PostProcessingA", .tag (Tag.list [])),
   ("StructuresC", .tag (Tag.comp [])),
   ("LiquidTicksA", .tag (Tag.list [])),
   ("LiquidsToBeTicked", .tag (Tag.list []))]

/-- C1 (code_bug): decode stores the per-slab light arrays under the bag
keys `BlockLight2048BA` / `SkyLight2048BA` (as `litMisc` shows for
`litSection`), but the light-attachment loop of `encode` looks them up
under `BlockLight2048` / `SkyLight2048`; the stored light is therefore
never found and the emitted section receives the all-zero 2048-byte arrays
even though non-zero light was stashed for its slab. -/
theorem stored_light_not_reattached :
    decodeBlockLightMap [litSection] = .ok [(0, litLight)] ∧
    decodeSkyLightMap [litSection] = .ok [(0, litLight)] ∧
    attachLights litMisc [plainSectionOut]
      = [⟨0, plainSectionOut.blockStates, plainSectionOut.palette, zeroLight, zeroLight⟩] ∧
    litLight ≠ zeroLight := by
  refine ⟨rfl, rfl, rfl, ?_⟩
  intro h
  injection h with h2
  exact replicate_ne_cons_of_head 2047 (by simp) h2


/-! ## Replicate-shaped evaluation lemmas -/

theorem chunkFuel_nil (f n : Nat) : chunkFuel f n ([] : List α) = [] := by
  cases f <;> rfl

theorem chunkFuel_replicate (k : Nat) : ∀ (f n : Nat) (x : α), 0 < n → k ≤ f →
    chunkFuel f n (List.replicate (k * n) x) = List.replicate k (List.replicate n x) := by
  induction k with
  | zero => intro f n x _ _; simp [chunkFuel_nil]
  | succ k ih =>
    intro f n x hn hf
    match f, hf with
    | f + 1, hf =>
      obtain ⟨m, rfl⟩ : ∃ m, n = m + 1 := ⟨n - 1, by omega⟩
      have hrep : List.replicate ((k + 1) * (m + 1)) x
          = x :: (List.replicate m x ++ List.replicate (k * (m + 1)) x) := by
        rw [show (k + 1) * (m + 1) = (m + 1) + k * (m + 1) by ring, List.replicate_add,
          List.replicate_succ, List.cons_append]
      rw [hrep]
      have hstep : chunkFuel (f + 1) (m + 1) (x :: (List.replicate m x ++ List.replicate (k * (m + 1)) x))
          = (x :: (List.replicate m x ++ List.replicate (k * (m + 1)) x)).take (m + 1)
            :: chunkFuel f (m + 1) ((x :: (List.replicate m x ++ List.replicate (k * (m + 1)) x)).drop (m + 1)) := rfl
      rw [hstep, List.take_succ_cons, List.drop_succ_cons,
        List.take_left' (by simp), List.drop_left' (by simp),
        ih f (m + 1) x hn (Nat.succ_le_succ_iff.mp hf), List.replicate_succ, List.replicate_succ]

theorem chunkList_replicate (k n : Nat) (x : α) (hn : 0 < n) :
    chunkList n (List.replicate (k * n) x) = List.replicate k (List.replicate n x) := by
  rw [chunkList, List.length_replicate]
  exact chunkFuel_replicate k (k * n) n x hn (Nat.le_mul_of_pos_right k hn)

theorem to3D_replicate (x : Nat) :
    to3D (List.replicate 4096 x) = List.replicate 16 (List.replicate 16 (List.replicate 16 x)) := by
  rw [to3D, show (4096 : Nat) = 256 * 16 by norm_num,
    chunkList_replicate 256 16 x (by norm_num),
    show (256 : Nat) = 16 * 16 by norm_num,
    chunkList_replicate 16 16 _ (by norm_num)]

theorem flatten_rep_rep (k n : Nat) (x : α) :
    (List.replicate k (List.replicate n x)).flatten = List.replicate (k * n) x := by
  induction k with
  | zero => simp
  | succ k ih =>
    rw [List.replicate_succ, List.flatten_cons, ih, ← List.replicate_add]
    congr 1
    ring

theorem buildRaw_nil :
    buildRaw [] = List.replicate 256 (List.replicate 16 (List.replicate 16 0)) := by
  rw [buildRaw]
  have h1 : (List.range 16).map (fun yI => to3D (lastAssign [] yI))
      = List.replicate 16 (List.replicate 16 (List.replicate 16 (List.replicate 16 0))) := by
    have h0 : ∀ yI, to3D (lastAssign [] yI)
        = List.replicate 16 (List.replicate 16 (List.replicate 16 0)) := by
      intro yI
      rw [show lastAssign [] yI = List.replicate 4096 0 from rfl, to3D_replicate]
    calc (List.range 16).map (fun yI => to3D (lastAssign [] yI))
        = (List.range 16).map (fun _ => List.replicate 16 (List.replicate 16 (List.replicate 16 0))) :=
          List.map_congr_left (fun a _ => h0 a)
      _ = List.replicate 16 (List.replicate 16 (List.replicate 16 (List.replicate 16 0))) := by
          simp [List.map_const']
  rw [h1, flatten_rep_rep]

theorem trans_rep_rep (k n : Nat) (x : α) :
    trans (List.replicate (k + 1) (List.replicate n x))
      = List.replicate n (List.replicate (k + 1) x) := by
  induction k with
  | zero =>
    have h : trans (List.replicate (0 + 1) (List.replicate n x))
        = (List.replicate n x).map (fun a => [a]) := rfl
    rw [h, List.map_replicate]
    rfl
  | succ k ih =>
    have h2 : List.replicate (k + 1 + 1) (List.replicate n x)
        = List.replicate n x :: (List.replicate n x :: List.replicate k (List.replicate n x)) := by
      rw [List.replicate_succ, List.replicate_succ]
    have h3 : trans (List.replicate (k + 1 + 1) (List.replicate n x))
        = List.zipWith (fun a row => a :: row) (List.replicate n x)
            (trans (List.replicate (k + 1) (List.replicate n x))) := by
      rw [h2, trans, ← List.replicate_succ]
    rw [h3, ih, List.zipWith_replicate']
    rfl

theorem trans_replicate_pos (k n : Nat) (x : α) (hk : 0 < k) :
    trans (List.replicate k (List.replicate n x)) = List.replicate n (List.replicate k x) := by
  obtain ⟨m, rfl⟩ : ∃ m, k = m + 1 := ⟨k - 1, by omega⟩
  exact trans_rep_rep m n x

theorem swap_air :
    swapStorageToPublic (List.replicate 256 (List.replicate 16 (List.replicate 16 (0:Nat))))
      = List.replicate 16 (List.replicate 256 (List.replicate 16 0)) := by
  rw [swapStorageToPublic, swapAxes01, trans_replicate_pos 256 16 _ (by norm_num),
    swapAxes02, List.map_replicate, trans_replicate_pos 256 16 _ (by norm_num),
    trans_replicate_pos 16 16 _ (by norm_num), List.map_replicate,
    trans_replicate_pos 16 256 _ (by norm_num)]

theorem seqMap_replicate (f : α → Except DErr β) (x : α) (y : β) (h : f x = .ok y) (n : Nat) :
    seqMap f (List.replicate n x) = .ok (List.replicate n y) := by
  induction n with
  | zero => rfl
  | succ n ih =>
    rw [List.replicate_succ, seqMap, h, ih, List.replicate_succ]
    rfl

/-! ## Section-loop and remap-stage helpers -/

theorem decodeSecGo_skip (pal : List Block) (assigns : List (Nat × List Nat)) (s : SectionT)
    (rest : List SectionT) (h : s.palette = none) :
    decodeSecGo pal assigns (s :: rest) = decodeSecGo pal assigns rest := by
  rw [decodeSecGo, h]

theorem decode_blocks_cons (s : SectionT) (rest : List SectionT) :
    _decode_blocks (s :: rest) = match decodeSecGo [airBlock] [] (s :: rest) with
      | .error e => .error e
      | .ok pr => remapStage pr.1 pr.2 := rfl

/-- The remap stage of an empty slab-assignment list over the bare air
palette: the all-air public volume. -/
theorem remap_air : remapStage [airBlock] [] = .ok (airVolume, [airBlock]) := by
  unfold remapStage
  rw [show remapInv [airBlock] = [0] from rfl, buildRaw_nil, swap_air]
  have k1 : seqMap (fun v => if v < ([0] : List Nat).length then
        (Except.ok (([0] : List Nat).getD v 0) : Except DErr Nat) else .error .indexError)
      (List.replicate 16 0) = .ok (List.replicate 16 0) :=
    seqMap_replicate _ 0 0 rfl 16
  have k2 : seqMap (seqMap (fun v => if v < ([0] : List Nat).length then
        (Except.ok (([0] : List Nat).getD v 0) : Except DErr Nat) else .error .indexError))
      (List.replicate 256 (List.replicate 16 0))
      = .ok (List.replicate 256 (List.replicate 16 0)) :=
    seqMap_replicate _ _ _ k1 256
  have k3 : seqMap (seqMap (seqMap (fun v => if v < ([0] : List Nat).length then
        (Except.ok (([0] : List Nat).getD v 0) : Except DErr Nat) else .error .indexError)))
      (List.replicate 16 (List.replicate 256 (List.replicate 16 0)))
      = .ok (List.replicate 16 (List.replicate 256 (List.replicate 16 0))) :=
    seqMap_replicate _ _ _ k2 16
  rw [k3]
  rfl

/-- A chunk holding a single section without a `Palette` decodes without
error to the all-air volume over the one-entry air palette, whatever else
(in particular a `BlockStates` array) the section holds. -/
theorem decode_single_skipped (s : SectionT) (h : s.palette = none) :
    _decode_blocks [s] = .ok (airVolume, [airBlock]) := by
  have h1 : decodeSecGo [airBlock] [] [s] = .ok ([airBlock], []) := by
    rw [decodeSecGo_skip [airBlock] [] s [] h]
    rfl
  rw [decode_blocks_cons, h1]
  exact remap_air

/-- A chunk holding a single section with a `Palette` but no `BlockStates`
fails with the `KeyError` for the missing `BlockStates` key. -/
theorem decode_single_nostates (s : SectionT) (p : List PEntry) (hp : s.palette = some p)
    (hb : s.blockStates = none) :
    _decode_blocks [s] = .error (.keyError "BlockStates") := by
  have h1 : decodeSecGo [airBlock] [] [s] = .error (.keyError "BlockStates") := by
    rw [decodeSecGo, hp, hb]
    rfl
  rw [decode_blocks_cons, h1]

/-! ## C2 -/

/-- C2 (counterexample): a section record carrying `BlockStates` but no
`Palette` does not make the decode fail — no MalformedSection error exists
anywhere in the code — and the slab is silently treated as air: the decode
returns the all-air volume over the one-entry air palette. -/
theorem blockstates_without_palette_decodes_ok :
    _decode_blocks [noPaletteSection] = .ok (airVolume, [airBlock]) :=
  decode_single_skipped noPaletteSection rfl

/-- C2 (corrected): a section without `Palette` is silently skipped and its
slab defaulted to air even when `BlockStates` is present, while a section
with `Palette` but without `BlockStates` fails with a `KeyError` lookup
error (not a MalformedSection error, which does not exist in the code). -/
theorem palette_presence_mismatch_behavior (s : SectionT) :
    (s.palette = none → _decode_blocks [s] = .ok (airVolume, [airBlock])) ∧
    (∀ p, s.palette = some p → s.blockStates = none →
      _decode_blocks [s] = .error (.keyError "BlockStates")) :=
  ⟨decode_single_skipped s, fun p hp hb => decode_single_nostates s p hp hb⟩

/-- Witness for `palette_presence_mismatch_behavior` on the two concrete
mismatched sections. -/
theorem palette_presence_mismatch_behavior_witness :
    _decode_blocks [noPaletteSection] = .ok (airVolume, [airBlock]) ∧
    _decode_blocks [noStatesSection] = .error (.keyError "BlockStates") :=
  ⟨(palette_presence_mismatch_behavior noPaletteSection).1 rfl,
   (palette_presence_mismatch_behavior noStatesSection).2 [⟨"minecraft:air", []⟩] rfl rfl⟩


/-! ## Transpose lemmas -/

theorem mem_of_mem_zipWith {f : α → β → γ} {as : List α} {bs : List β} {c : γ}
    (h : c ∈ List.zipWith f as bs) : ∃ a ∈ as, ∃ b ∈ bs, c = f a b := by
  induction as generalizing bs with
  | nil => simp at h
  | cons a as ih =>
    cases bs with
    | nil => simp at h
    | cons b bs =>
      rw [List.zipWith_cons_cons] at h
      rcases List.mem_cons.mp h with h | h
      · exact ⟨a, by simp, b, by simp, h⟩
      · obtain ⟨a2, ha2, b2, hb2, he⟩ := ih h
        exact ⟨a2, List.mem_cons_of_mem _ ha2, b2, List.mem_cons_of_mem _ hb2, he⟩

theorem trans_row_mem (m : List (List α)) :
    ∀ r2 ∈ trans m, ∀ a ∈ r2, ∃ r ∈ m, a ∈ r := by
  induction m with
  | nil => intro r2 hr2; simp [trans] at hr2
  | cons r rs ih =>
    cases rs with
    | nil =>
      intro r2 hr2
      rw [show trans [r] = r.map (fun a => [a]) from rfl] at hr2
      obtain ⟨a, ha, rfl⟩ := List.mem_map.mp hr2
      intro b hb
      simp only [List.mem_singleton] at hb
      subst hb
      exact ⟨r, by simp, ha⟩
    | cons s rs2 =>
      intro r2 hr2
      rw [show trans (r :: s :: rs2)
          = List.zipWith (fun a row => a :: row) r (trans (s :: rs2)) from rfl] at hr2
      obtain ⟨a, ha, row, hrow, rfl⟩ := mem_of_mem_zipWith hr2
      intro b hb
      rcases List.mem_cons.mp hb with rfl | hb
      · exact ⟨r, by simp, ha⟩
      · obtain ⟨r0, hr0, hb0⟩ := ih row hrow b hb
        exact ⟨r0, List.mem_cons_of_mem _ hr0, hb0⟩

theorem trans_length {m : List (List α)} {n : Nat} (hm : m ≠ []) (h : ∀ r ∈ m, r.length = n) :
    (trans m).length = n := by
  induction m with
  | nil => exact absurd rfl hm
  | cons r rs ih =>
    cases rs with
    | nil =>
      show (r.map (fun a => [a])).length = n
      simp [h r (by simp)]
    | cons s rs2 =>
      show (List.zipWith (fun a row => a :: row) r (trans (s :: rs2))).length = n
      rw [List.length_zipWith, ih (by simp) (fun x hx => h x (List.mem_cons_of_mem _ hx)),
        h r (by simp)]
      simp

theorem trans_row_length {m : List (List α)} {n : Nat} (h : ∀ r ∈ m, r.length = n) :
    ∀ r2 ∈ trans m, r2.length = m.length := by
  induction m with
  | nil => intro r2 hr2; simp [trans] at hr2
  | cons r rs ih =>
    cases rs with
    | nil =>
      intro r2 hr2
      rw [show trans [r] = r.map (fun a => [a]) from rfl] at hr2
      obtain ⟨a, _, rfl⟩ := List.mem_map.mp hr2
      rfl
    | cons s rs2 =>
      intro r2 hr2
      rw [show trans (r :: s :: rs2)
          = List.zipWith (fun a row => a :: row) r (trans (s :: rs2)) from rfl] at hr2
      obtain ⟨a, _, row, hrow, rfl⟩ := mem_of_mem_zipWith hr2
      have hlen := ih (fun x hx => h x (List.mem_cons_of_mem _ hx)) row hrow
      simp [hlen]

theorem getD_getD_trans {m : List (List α)} {n : Nat} (h : ∀ r ∈ m, r.length = n)
    (i : Nat) (hi : i < n) (d : α) :
    ∀ j, j < m.length → ((trans m).getD i []).getD j d = (m.getD j []).getD i d := by
  induction m with
  | nil => intro j hj; simp at hj
  | cons r rs ih =>
    have hlen : r.length = n := h r (by simp)
    have hir : i < r.length := hlen ▸ hi
    cases rs with
    | nil =>
      intro j hj
      have hj0 : j = 0 := by simpa using hj
      subst hj0
      rw [show trans [r] = r.map (fun a => [a]) from rfl]
      rw [List.getD_eq_getElem?_getD (List.map (fun a => [a]) r) i [],
        List.getElem?_map, List.getElem?_eq_getElem hir]
      simp [List.getD_eq_getElem?_getD, List.getElem?_eq_getElem hir]
    | cons s rs2 =>
      intro j hj
      have hT : ∀ x ∈ s :: rs2, x.length = n := fun x hx => h x (List.mem_cons_of_mem _ hx)
      have hTlen : (trans (s :: rs2)).length = n := trans_length (by simp) hT
      have hiT : i < (trans (s :: rs2)).length := hTlen ▸ hi
      rw [show trans (r :: s :: rs2)
          = List.zipWith (fun a row => a :: row) r (trans (s :: rs2)) from rfl]
      rw [List.getD_eq_getElem?_getD
          (List.zipWith (fun a row => a :: row) r (trans (s :: rs2))) i [],
        List.getElem?_zipWith,
        List.getElem?_eq_getElem hir, List.getElem?_eq_getElem hiT]
      cases j with
      | zero => simp [List.getElem?_eq_getElem hir]
      | succ j2 =>
        have hj2 : j2 < (s :: rs2).length := by simpa using hj
        have := ih hT j2 hj2
        rw [List.getD_eq_getElem?_getD (trans (s :: rs2)) i [],
          List.getElem?_eq_getElem hiT] at this
        simp only [Option.getD_some]
        rw [List.getD_cons_succ, List.getD_cons_succ]
        exact this



/-! ## Axis-reorder lemmas at the volume level -/

theorem rect3_props {a b c : Nat} {v : Vol} (h : rect3 a b c v = true) :
    v.length = a ∧ ∀ plane ∈ v, plane.length = b ∧ ∀ row ∈ plane, row.length = c := by
  unfold rect3 at h
  simp only [Bool.and_eq_true, beq_iff_eq, List.all_eq_true] at h
  exact ⟨h.1, fun plane hp => ⟨(h.2 plane hp).1, fun row hr => (h.2 plane hp).2 row hr⟩⟩

theorem getD_mem_of_lt {l : List α} {n : Nat} (h : n < l.length) (d : α) : l.getD n d ∈ l := by
  rw [List.getD_eq_getElem?_getD, List.getElem?_eq_getElem h]
  exact List.getElem_mem h

/-- `trans` at the outer level of a 3-dimensional volume swaps the first two
coordinates. -/
theorem get3_trans (w : Vol) {n : Nat} (h : ∀ plane ∈ w, plane.length = n)
    (x y z : Nat) (hx : x < n) (hy : y < w.length) :
    get3 (trans w) x y z = get3 w y x z :=
  congrArg (fun l => l.getD z 0) (getD_getD_trans h x hx [] y hy)

/-- `map trans` over a 3-dimensional volume swaps the last two coordinates. -/
theorem get3_map_trans (w : Vol) {n : Nat} (x y z : Nat)
    (hx : x < w.length) (h : ∀ row ∈ w.getD x [], row.length = n)
    (hy : y < n) (hz : z < (w.getD x []).length) :
    get3 (w.map trans) x y z = get3 w x z y := by
  unfold get3
  have hmap : (w.map trans).getD x [] = trans (w.getD x []) := by
    rw [List.getD_eq_getElem?_getD (w.map trans) x [], List.getElem?_map,
      List.getElem?_eq_getElem hx, List.getD_eq_getElem?_getD w x [],
      List.getElem?_eq_getElem hx]
    rfl
  rw [hmap]
  exact getD_getD_trans h y hy 0 z hz

/-- The axis reordering of line 143 maps the public voxel `(x, y, z)` to the
storage voxel `(y, z, x)` on every `256 × 16 × 16` storage volume. -/
theorem swapStorage_get (v : Vol) (h : rect3 256 16 16 v = true)
    (x y z : Nat) (hx : x < 16) (hy : y < 256) (hz : z < 16) :
    get3 (swapStorageToPublic v) x y z = get3 v y z x := by
  obtain ⟨hlen, hplanes⟩ := rect3_props h
  have hvne : v ≠ [] := by
    intro he
    rw [he] at hlen
    simp at hlen
  have hplen : ∀ plane ∈ v, plane.length = 16 := fun p hp => (hplanes p hp).1
  have hrow : ∀ plane ∈ v, ∀ r ∈ plane, r.length = 16 := fun p hp => (hplanes p hp).2
  have hwlen : (trans v).length = 16 := trans_length hvne hplen
  have hwrowlen : ∀ r2 ∈ trans v, r2.length = 256 := by
    intro r2 hr2
    rw [← hlen]
    exact trans_row_length hplen r2 hr2
  have hwelts : ∀ r2 ∈ trans v, ∀ rr ∈ r2, rr.length = 16 := by
    intro r2 hr2 rr hrr
    obtain ⟨plane, hp, hrr2⟩ := trans_row_mem v r2 hr2 rr hrr
    exact hrow plane hp rr hrr2
  have hclen : ((trans v).map trans).length = 16 := by rw [List.length_map, hwlen]
  have hcrows : ∀ r2 ∈ (trans v).map trans, r2.length = 16 := by
    intro r2 hr2
    obtain ⟨r0, hr0, rfl⟩ := List.mem_map.mp hr2
    refine trans_length ?_ (hwelts r0 hr0)
    intro he
    have := hwrowlen r0 hr0
    rw [he] at this
    simp at this
  have hcelts : ∀ r2 ∈ (trans v).map trans, ∀ rr ∈ r2, rr.length = 256 := by
    intro r2 hr2 rr hrr
    obtain ⟨r0, hr0, rfl⟩ := List.mem_map.mp hr2
    rw [← hwrowlen r0 hr0]
    exact trans_row_length (hwelts r0 hr0) rr hrr
  have hcne : (trans v).map trans ≠ [] := by
    intro he
    rw [he] at hclen
    simp at hclen
  have hdlen : (trans ((trans v).map trans)).length = 16 := trans_length hcne hcrows
  have hdrows : ∀ r2 ∈ trans ((trans v).map trans), r2.length = 16 := by
    intro r2 hr2
    rw [← hclen]
    exact trans_row_length hcrows r2 hr2
  have hdelts : ∀ r2 ∈ trans ((trans v).map trans), ∀ rr ∈ r2, rr.length = 256 := by
    intro r2 hr2 rr hrr
    obtain ⟨r0, hr0, hrr2⟩ := trans_row_mem ((trans v).map trans) r2 hr2 rr hrr
    exact hcelts r0 hr0 rr hrr2
  have hout : swapStorageToPublic v
      = (trans ((trans v).map trans)).map trans := rfl
  rw [hout]
  have hdx : x < (trans ((trans v).map trans)).length := by rw [hdlen]; exact hx
  have s1 : get3 ((trans ((trans v).map trans)).map trans) x y z
      = get3 (trans ((trans v).map trans)) x z y := by
    refine get3_map_trans _ x y z hdx ?_ hy ?_
    · exact hdelts _ (getD_mem_of_lt hdx [])
    · rw [hdrows _ (getD_mem_of_lt hdx [])]
      exact hz
  have s2 : get3 (trans ((trans v).map trans)) x z y
      = get3 ((trans v).map trans) z x y := by
    refine get3_trans _ hcrows x z y hx ?_
    rw [hclen]
    exact hz
  have hwz : z < (trans v).length := by rw [hwlen]; exact hz
  have s3 : get3 ((trans v).map trans) z x y = get3 (trans v) z y x := by
    refine get3_map_trans _ z x y hwz ?_ hx ?_
    · exact hwelts _ (getD_mem_of_lt hwz [])
    · rw [hwrowlen _ (getD_mem_of_lt hwz [])]
      exact hy
  have s4 : get3 (trans v) z y x = get3 v y z x := by
    refine get3_trans v hplen z y x hz ?_
    rw [hlen]
    exact hy
  rw [s1, s2, s3, s4]



/-! ## C9 -/

set_option maxRecDepth 40000 in
/-- C9 (counterexample): on the probe volume the reordered public voxel at
(x, y, z) = (1, 0, 0) holds the storage voxel (0, 0, 1) = 1, not the
storage voxel (0, 1, 0) = 16 that the claimed `(y, x, z)` mapping predicts. -/
theorem axis_reorder_not_y_x_z :
    get3 (swapStorageToPublic probeVolume) 1 0 0 = 1 ∧
    get3 probeVolume 0 1 0 = 16 ∧ (1 : Nat) ≠ 16 := by
  refine ⟨by decide, by decide, by decide⟩

/-- C9 (corrected): the axis reordering step maps the storage-ordered
volume (outer axis height, then z, then x) onto the public order (x, y, z):
the public voxel at (x, y, z) equals the storage voxel at (y, z, x) — not
(y, x, z) as claimed. -/
theorem axis_reorder_is_y_z_x (v : Vol) (h : rect3 256 16 16 v = true)
    (x y z : Nat) (hx : x < 16) (hy : y < 256) (hz : z < 16) :
    get3 (swapStorageToPublic v) x y z = get3 v y z x :=
  swapStorage_get v h x y z hx hy hz

theorem rect3_probe : rect3 256 16 16 probeVolume = true := by
  simp [rect3, probeVolume, List.all_eq_true]

/-- Witness for `axis_reorder_is_y_z_x` on the probe volume. -/
theorem axis_reorder_is_y_z_x_witness :
    rect3 256 16 16 probeVolume = true ∧ (1 : Nat) < 16 ∧ (2 : Nat) < 256 ∧ (3 : Nat) < 16 ∧
    get3 (swapStorageToPublic probeVolume) 1 2 3 = get3 probeVolume 2 3 1 :=
  ⟨rect3_probe, by decide, by decide, by decide,
    axis_reorder_is_y_z_x probeVolume rect3_probe 1 2 3 (by decide) (by decide) (by decide)⟩


/-! ## seqMap lemmas -/

theorem ebind_ok (a : α) (f : α → Except DErr β) : (Except.ok a : Except DErr α) >>= f = f a := rfl

theorem ebind_err (e : DErr) (f : α → Except DErr β) :
    (Except.error e : Except DErr α) >>= f = .error e := rfl

theorem seqMap_ok_mem {f : α → Except DErr β} {l : List α} {out : List β}
    (h : seqMap f l = .ok out) : ∀ b ∈ out, ∃ a ∈ l, f a = .ok b := by
  induction l generalizing out with
  | nil =>
    rw [seqMap] at h
    cases h
    intro b hb
    simp at hb
  | cons a as ih =>
    rw [seqMap] at h
    cases hfa : f a with
    | error e => rw [hfa] at h; simp [ebind_err] at h
    | ok b0 =>
      rw [hfa, ebind_ok] at h
      cases hrest : seqMap f as with
      | error e => rw [hrest] at h; simp [ebind_err] at h
      | ok bs =>
        rw [hrest, ebind_ok] at h
        cases h
        intro b hb
        rcases List.mem_cons.mp hb with rfl | hb
        · exact ⟨a, by simp, hfa⟩
        · obtain ⟨a2, ha2, hfa2⟩ := ih hrest b hb
          exact ⟨a2, List.mem_cons_of_mem _ ha2, hfa2⟩

theorem seqMap_ok_map {f : α → Except DErr β} {g : α → β} {l : List α} {out : List β}
    (h : seqMap f l = .ok out) (hg : ∀ a b, f a = .ok b → b = g a) : out = l.map g := by
  induction l generalizing out with
  | nil =>
    rw [seqMap] at h
    cases h
    rfl
  | cons a as ih =>
    rw [seqMap] at h
    cases hfa : f a with
    | error e => rw [hfa] at h; simp [ebind_err] at h
    | ok b0 =>
      rw [hfa, ebind_ok] at h
      cases hrest : seqMap f as with
      | error e => rw [hrest] at h; simp [ebind_err] at h
      | ok bs =>
        rw [hrest, ebind_ok] at h
        cases h
        rw [List.map_cons, ← hg a b0 hfa, ← ih hrest]

/-! ## Dedup lemmas -/

theorem eqBlock_refl (a : Block) : eqBlock a a = true := by
  simp [eqBlock]

theorem dedup_pairwise_aux (l : List Block) :
    ∀ acc, List.Pairwise (fun a b => eqBlock a b = false) acc →
    List.Pairwise (fun a b => eqBlock a b = false)
      (l.foldl (fun acc b => if acc.any (fun a => eqBlock a b) then acc else acc ++ [b]) acc) := by
  induction l with
  | nil => intro acc h; exact h
  | cons c l ih =>
    intro acc h
    rw [List.foldl_cons]
    by_cases hc : acc.any (fun a => eqBlock a c) = true
    · rw [if_pos hc]
      exact ih acc h
    · rw [if_neg hc]
      refine ih (acc ++ [c]) ?_
      rw [List.pairwise_append]
      refine ⟨h, List.pairwise_singleton _ _, ?_⟩
      intro a ha b hb
      rcases List.mem_singleton.mp hb with rfl
      have hfalse : acc.any (fun x => eqBlock x b) = false := by
        exact Bool.eq_false_iff.mpr hc
      have := (List.any_eq_false.mp hfalse) a ha
      simpa using this

theorem dedup_pairwise (l : List Block) :
    List.Pairwise (fun a b => eqBlock a b = false) (dedupBlocks l) :=
  dedup_pairwise_aux l [] List.Pairwise.nil

theorem dedup_covers_aux (l : List Block) :
    ∀ acc a, ((∃ x ∈ acc, eqBlock x a = true) ∨ a ∈ l) →
    ∃ x ∈ l.foldl (fun acc b => if acc.any (fun a => eqBlock a b) then acc else acc ++ [b]) acc,
      eqBlock x a = true := by
  induction l with
  | nil =>
    intro acc a h
    rcases h with h | h
    · exact h
    · simp at h
  | cons c l ih =>
    intro acc a h
    rw [List.foldl_cons]
    have hstep : ∀ x ∈ acc,
        x ∈ (if acc.any (fun a => eqBlock a c) then acc else acc ++ [c]) := by
      intro x hx
      by_cases hc : acc.any (fun a => eqBlock a c) = true
      · rw [if_pos hc]; exact hx
      · rw [if_neg hc]; exact List.mem_append_left _ hx
    rcases h with ⟨x, hx, he⟩ | h
    · exact ih _ a (Or.inl ⟨x, hstep x hx, he⟩)
    · rcases List.mem_cons.mp h with rfl | h
      · refine ih _ a (Or.inl ?_)
        by_cases hc : acc.any (fun x => eqBlock x a) = true
        · rw [if_pos hc]
          obtain ⟨x, hx, he⟩ := List.any_eq_true.mp hc
          exact ⟨x, hx, he⟩
        · rw [if_neg hc]
          exact ⟨a, List.mem_append_right _ (by simp), eqBlock_refl a⟩
      · exact ih _ a (Or.inr h)

theorem dedup_covers {l : List Block} {a : Block} (h : a ∈ l) :
    ∃ x ∈ dedupBlocks l, eqBlock x a = true :=
  dedup_covers_aux l [] a (Or.inr h)

theorem indexOfBlock_lt {u : List Block} {b : Block} (h : ∃ x ∈ u, eqBlock x b = true) :
    indexOfBlock u b < u.length :=
  List.findIdx_lt_length.mpr h

theorem remapInv_bound (palL : List Block) :
    ∀ i ∈ remapInv palL, i < (dedupBlocks palL).length := by
  intro i hi
  obtain ⟨b, hb, rfl⟩ := List.mem_map.mp hi
  exact indexOfBlock_lt (dedup_covers hb)

/-! ## C5 -/

theorem remapStage_invariants (palL : List Block) (assigns : List (Nat × List Nat)) :
    DecodeInvariants (remapStage palL assigns) := by
  unfold remapStage
  cases hseq : seqMap (seqMap (seqMap (fun v =>
      if v < (remapInv palL).length then .ok ((remapInv palL).getD v 0)
      else .error .indexError)))
      (swapStorageToPublic (buildRaw assigns)) with
  | error e => exact trivial
  | ok vol =>
    refine ⟨?_, dedup_pairwise palL⟩
    intro plane hplane row hrow i hi
    obtain ⟨p0, _, hps⟩ := seqMap_ok_mem hseq plane hplane
    obtain ⟨r0, _, hrs⟩ := seqMap_ok_mem hps row hrow
    obtain ⟨v0, _, hvs⟩ := seqMap_ok_mem hrs i hi
    by_cases hlt : v0 < (remapInv palL).length
    · rw [if_pos hlt] at hvs
      cases hvs
      exact remapInv_bound palL _ (getD_mem_of_lt hlt 0)
    · rw [if_neg hlt] at hvs
      cases hvs

/-- C5 (confirmed): for every decode result, every index present in the
returned voxel volume is a valid index into the returned palette, and no
two distinct entries of the returned palette are structurally equal block
descriptors. -/
theorem decode_indices_valid_palette_unique (sections : List SectionT) :
    DecodeInvariants (_decode_blocks sections) := by
  unfold _decode_blocks
  by_cases he : sections.isEmpty
  · rw [if_pos he]
    exact trivial
  · rw [if_neg he]
    cases hgo : decodeSecGo [airBlock] [] sections with
    | error e => exact trivial
    | ok pr => exact remapStage_invariants pr.1 pr.2


/-! ## Sorted-unique lemmas -/

theorem mem_insSorted (x a : Nat) (l : List Nat) : a ∈ insSorted x l ↔ a = x ∨ a ∈ l := by
  induction l with
  | nil => simp [insSorted]
  | cons y ys ih =>
    rw [insSorted]
    by_cases h1 : x < y
    · rw [if_pos h1]
      simp [or_comm, or_assoc, or_left_comm]
    · rw [if_neg h1]
      by_cases h2 : x = y
      · subst h2
        rw [if_pos rfl]
        constructor
        · exact Or.inr
        · rintro (rfl | h)
          · simp
          · exact h
      · rw [if_neg h2]
        simp only [List.mem_cons, ih]
        constructor
        · rintro (rfl | h | h) <;> simp [*]
        · rintro (rfl | rfl | h) <;> simp [*]

theorem mem_npUnique (a : Nat) (l : List Nat) : a ∈ npUniqueNat l ↔ a ∈ l := by
  induction l with
  | nil => simp [npUniqueNat]
  | cons c l ih =>
    rw [show npUniqueNat (c :: l) = insSorted c (npUniqueNat l) from rfl,
      mem_insSorted, ih, List.mem_cons]

theorem head?_insSorted (x : Nat) (l : List Nat) :
    (insSorted x l).head? = some x ∨ (insSorted x l).head? = l.head? := by
  cases l with
  | nil => left; rfl
  | cons y ys =>
    rw [insSorted]
    by_cases h1 : x < y
    · rw [if_pos h1]; left; rfl
    · rw [if_neg h1]
      by_cases h2 : x = y
      · rw [if_pos h2]; right; rfl
      · rw [if_neg h2]; right; rfl

theorem chain'_insSorted (x : Nat) (l : List Nat)
    (h : List.Chain' (fun a b => a < b) l) :
    List.Chain' (fun a b => a < b) (insSorted x l) := by
  induction l with
  | nil => simp [insSorted]
  | cons y ys ih =>
    rw [insSorted]
    by_cases h1 : x < y
    · rw [if_pos h1]
      exact List.chain'_cons.mpr ⟨h1, h⟩
    · rw [if_neg h1]
      by_cases h2 : x = y
      · rw [if_pos h2]; exact h
      · rw [if_neg h2]
        rw [List.chain'_cons']
        refine ⟨?_, ih h.tail⟩
        intro z hz
        rcases head?_insSorted x ys with hh | hh
        · rw [hh] at hz
          simp only [Option.mem_def, Option.some.injEq] at hz
          subst hz
          omega
        · rw [hh] at hz
          exact (List.chain'_cons'.mp h).1 z hz

theorem npUnique_chain (l : List Nat) :
    List.Chain' (fun a b => a < b) (npUniqueNat l) := by
  induction l with
  | nil => simp [npUniqueNat]
  | cons c l ih =>
    rw [show npUniqueNat (c :: l) = insSorted c (npUniqueNat l) from rfl]
    exact chain'_insSorted c _ ih

/-! ## C4 amended theorem -/

/-- C4 (corrected): an emitted section's locally recomputed palette holds
exactly the descriptors used in the slab, but listed by ascending global
palette index (`numpy.unique` sorts), not by order of first appearance. -/
theorem local_palette_sorted_by_global_index (v : Vol) (pal : List Block) (y : Nat) :
    LocalPaletteShape v pal y := by
  unfold LocalPaletteShape
  cases hs : encodeSlab v pal y with
  | error e => exact trivial
  | ok osec =>
    cases osec with
    | none => exact trivial
    | some sec =>
      refine ⟨?_, npUnique_chain _, fun i => mem_npUnique i _⟩
      unfold encodeSlab at hs
      cases hsel : seqMap (fun i =>
          if h : i < pal.length then Except.ok (pal.get ⟨i, h⟩) else Except.error DErr.indexError)
          (npUniqueNat (ravelSlab v y)) with
      | error e => rw [hsel] at hs; cases hs
      | ok sel =>
        rw [hsel] at hs
        replace hs : (if ((_encode_palette sel).length == 1
              && ((_encode_palette sel).getD 0 ⟨"", []⟩).name == "minecraft:air") = true then
            Except.ok none
          else Except.ok (some (⟨y, encode_long_array (localIdx v y),
            _encode_palette sel⟩ : SectionOut))) = Except.ok (some sec) := hs
        have hmap : sel = (npUniqueNat (ravelSlab v y)).map (fun i => pal.getD i airBlock) := by
          refine seqMap_ok_map hsel ?_
          intro a b hab
          by_cases ha : a < pal.length
          · rw [dif_pos ha] at hab
            cases hab
            rw [List.get_eq_getElem, List.getD_eq_getElem?_getD, List.getElem?_eq_getElem ha]
            rfl
          · rw [dif_neg ha] at hab
            cases hab
        by_cases hcond : ((_encode_palette sel).length == 1
            && ((_encode_palette sel).getD 0 ⟨"", []⟩).name == "minecraft:air") = true
        · rw [if_pos hcond] at hs
          cases hs
        · rw [if_neg hcond] at hs
          cases hs
          rw [hmap]



/-! ## C4 counterexample -/

theorem ravel_mixed : ravelSlab mixedVolume 0 = 2 :: List.replicate 4095 1 := by
  rw [ravelSlab, sliceSlab, mixedVolume]
  rw [List.map_cons, List.map_replicate]
  rw [show (0 * 16 : Nat) = 0 from rfl, List.drop_zero, List.drop_zero]
  rw [show (16 : Nat) = 15 + 1 from rfl, List.take_succ_cons, List.take_replicate,
    List.take_replicate]
  rw [show min 15 255 = 15 from rfl, show min (15 + 1) 256 = 15 + 1 from rfl]
  rw [List.map_cons, List.map_replicate]
  norm_num [List.flatten_cons, flatten_rep_rep, List.cons_append, List.append_assoc,
    ← List.replicate_add]

theorem npUnique_replicate (n : Nat) (x : Nat) :
    npUniqueNat (List.replicate (n + 1) x) = [x] := by
  induction n with
  | zero => rfl
  | succ n ih =>
    rw [List.replicate_succ, show ∀ l, npUniqueNat (x :: l) = insSorted x (npUniqueNat l)
      from fun l => rfl, ih]
    rw [insSorted]
    rw [if_neg (lt_irrefl x), if_pos rfl]

theorem npUnique_mixed : npUniqueNat (ravelSlab mixedVolume 0) = [1, 2] := by
  rw [ravel_mixed, show ∀ l, npUniqueNat ((2:Nat) :: l) = insSorted 2 (npUniqueNat l)
    from fun l => rfl]
  rw [show (4095 : Nat) = 4094 + 1 from rfl, npUnique_replicate]
  rfl

theorem specFirstSeen_stable (x : Nat) (acc : List Nat) (hx : acc.contains x = true) (n : Nat) :
    (List.replicate n x).foldl
      (fun acc v => if acc.contains v then acc else acc ++ [v]) acc = acc := by
  induction n with
  | zero => rfl
  | succ n ih =>
    rw [List.replicate_succ, List.foldl_cons, if_pos hx]
    exact ih

theorem specFirstSeen_mixed : specFirstSeen (ravelSlab mixedVolume 0) = [2, 1] := by
  rw [ravel_mixed, specFirstSeen, List.foldl_cons]
  rw [show (if ([] : List Nat).contains 2 then ([] : List Nat) else [] ++ [2]) = [2] from rfl]
  rw [show (4095 : Nat) = 4094 + 1 from rfl, List.replicate_succ, List.foldl_cons]
  rw [show (if ([2] : List Nat).contains 1 then ([2] : List Nat) else [2] ++ [1]) = [2, 1]
    from rfl]
  exact specFirstSeen_stable 1 [2, 1] rfl 4094


/-- Unfolding equation for `encodeSlab`, stated on abstract arguments. -/
theorem encodeSlab_eq (v : Vol) (pal : List Block) (y : Nat) :
    encodeSlab v pal y = match seqMap (fun i =>
      if h : i < pal.length then .ok (pal.get ⟨i, h⟩) else .error .indexError)
      (npUniqueNat (ravelSlab v y)) with
    | .error e => .error e
    | .ok sel =>
      if (_encode_palette sel).length == 1
          && ((_encode_palette sel).getD 0 ⟨"", []⟩).name == "minecraft:air" then
        .ok none
      else .ok (some ⟨y, encode_long_array (localIdx v y), _encode_palette sel⟩) := rfl

/-- C4 (counterexample): in `mixedVolume` the dirt voxel (global index 2)
appears first in the slab's ravel order, before any stone voxel (global
index 1); the emitted local palette is `[stone, dirt]` — ascending global
index — while the spec's first-appearance order is `[dirt, stone]`. -/
theorem local_palette_not_first_appearance :
    (encodeSlab mixedVolume asdPalette 0).map (Option.map (fun s => s.palette))
      = .ok (some [⟨"minecraft:stone", []⟩, ⟨"minecraft:dirt", []⟩]) ∧
    specLocalPalette mixedVolume asdPalette 0
      = [⟨"minecraft:dirt", []⟩, ⟨"minecraft:stone", []⟩] ∧
    ([⟨"minecraft:stone", []⟩, ⟨"minecraft:dirt", []⟩] : List PEntry)
      ≠ [⟨"minecraft:dirt", []⟩, ⟨"minecraft:stone", []⟩] := by
  refine ⟨?_, ?_, by decide⟩
  · have hsel : seqMap (fun i => if h : i < asdPalette.length then
          Except.ok (asdPalette.get ⟨i, h⟩) else Except.error DErr.indexError)
        (npUniqueNat (ravelSlab mixedVolume 0))
        = .ok [stoneBlock, dirtBlock] := by
      rw [npUnique_mixed]
      rfl
    rw [encodeSlab_eq, hsel]
    rfl
  · rw [specLocalPalette, specFirstSeen_mixed]
    rfl


/-! ## Structural-equality and slab-length lemmas -/

theorem eqBlock_iff (a b : Block) : eqBlock a b = true ↔
    (a.ns = b.ns ∧ a.baseName = b.baseName
      ∧ canonProps a.properties = canonProps b.properties) := by
  simp [eqBlock, and_assoc]

theorem eqBlock_trans2 {a b c : Block} (hac : eqBlock a c = true) (hbc : eqBlock b c = true) :
    eqBlock a b = true := by
  rw [eqBlock_iff] at hac hbc ⊢
  obtain ⟨h1, h2, h3⟩ := hac
  obtain ⟨g1, g2, g3⟩ := hbc
  exact ⟨h1.trans g1.symm, h2.trans g2.symm, h3.trans g3.symm⟩

theorem length_flatten_const {L : List (List α)} {c : Nat} (h : ∀ l ∈ L, l.length = c) :
    L.flatten.length = L.length * c := by
  induction L with
  | nil => simp
  | cons l L ih =>
    rw [List.flatten_cons, List.length_append, ih (fun x hx => h x (List.mem_cons_of_mem _ hx)),
      h l (by simp), List.length_cons]
    ring

theorem ravelSlab_length {v : Vol} (h : rect3 16 256 16 v = true) {y : Nat} (hy : y < 16) :
    (ravelSlab v y).length = 4096 := by
  obtain ⟨hlen, hpl⟩ := rect3_props h
  rw [ravelSlab]
  have hslice : ∀ pl ∈ (sliceSlab v y).map List.flatten, pl.length = 256 := by
    intro pl hpl2
    obtain ⟨sl, hsl, rfl⟩ := List.mem_map.mp hpl2
    rw [sliceSlab] at hsl
    obtain ⟨plane, hplane, rfl⟩ := List.mem_map.mp hsl
    have hrows : ∀ r ∈ (plane.drop (y * 16)).take 16, r.length = 16 := fun r hr =>
      (hpl plane hplane).2 r (List.mem_of_mem_drop (List.mem_of_mem_take hr))
    have hslen : ((plane.drop (y * 16)).take 16).length = 16 := by
      rw [List.length_take, List.length_drop, (hpl plane hplane).1]
      omega
    rw [length_flatten_const hrows, hslen]
  rw [length_flatten_const hslice, List.length_map, sliceSlab, List.length_map, hlen]

theorem npUnique_all_eq {l : List Nat} {x : Nat} (hne : l ≠ []) (h : ∀ a ∈ l, a = x) :
    npUniqueNat l = [x] := by
  induction l with
  | nil => exact absurd rfl hne
  | cons c l ih =>
    have hc : c = x := h c (by simp)
    subst hc
    rw [show npUniqueNat (c :: l) = insSorted c (npUniqueNat l) from rfl]
    cases l with
    | nil => rfl
    | cons d l2 =>
      rw [ih (by simp) (fun a ha => h a (List.mem_cons_of_mem _ ha))]
      rw [insSorted, if_neg (lt_irrefl c), if_pos rfl]

/-! ## C7 -/

/-- C7 (confirmed): a 16×16×16 slab whose every voxel resolves to the air
descriptor — over a palette without structural duplicates — is omitted from
the emitted section list. -/
theorem all_air_slab_omitted (v : Vol) (pal : List Block) (y : Nat)
    (hrect : rect3 16 256 16 v = true) (hy : y < 16)
    (hpal : List.Pairwise (fun a b => eqBlock a b = false) pal)
    (hair : ∀ i ∈ ravelSlab v y, i < pal.length
      ∧ eqBlock (pal.getD i airBlock) airBlock = true) :
    encodeSlab v pal y = .ok none := by
  have hlen4096 : (ravelSlab v y).length = 4096 := ravelSlab_length hrect hy
  have hne : ravelSlab v y ≠ [] := by
    intro he
    rw [he] at hlen4096
    simp at hlen4096
  obtain ⟨i0, hi0mem⟩ : ∃ i0, i0 ∈ ravelSlab v y := by
    cases hl : ravelSlab v y with
    | nil => exact absurd hl hne
    | cons a l => exact ⟨a, by simp [hl]⟩
  obtain ⟨hi0lt, hi0air⟩ := hair i0 hi0mem
  have hgetDeq : ∀ j (hj : j < pal.length), pal.getD j airBlock = pal.get ⟨j, hj⟩ := by
    intro j hj
    rw [List.get_eq_getElem, List.getD_eq_getElem?_getD, List.getElem?_eq_getElem hj]
    rfl
  have halleq : ∀ a ∈ ravelSlab v y, a = i0 := by
    intro a ha
    obtain ⟨halt, haair⟩ := hair a ha
    by_contra hne2
    rcases Nat.lt_or_ge a i0 with hlt | hge
    · have hpw := List.pairwise_iff_getElem.mp hpal a i0 halt hi0lt hlt
      have heq : eqBlock (pal.getD a airBlock) (pal.getD i0 airBlock) = true :=
        eqBlock_trans2 haair hi0air
      rw [hgetDeq a halt, hgetDeq i0 hi0lt, List.get_eq_getElem, List.get_eq_getElem] at heq
      rw [hpw] at heq
      cases heq
    · have hgt : i0 < a := by omega
      have hpw := List.pairwise_iff_getElem.mp hpal i0 a hi0lt halt hgt
      have heq : eqBlock (pal.getD i0 airBlock) (pal.getD a airBlock) = true :=
        eqBlock_trans2 hi0air haair
      rw [hgetDeq a halt, hgetDeq i0 hi0lt, List.get_eq_getElem, List.get_eq_getElem] at heq
      rw [hpw] at heq
      cases heq
  have huniq : npUniqueNat (ravelSlab v y) = [i0] := npUnique_all_eq hne halleq
  rw [encodeSlab_eq, huniq]
  have hsel : seqMap (fun i => if h : i < pal.length then Except.ok (pal.get ⟨i, h⟩)
      else Except.error DErr.indexError) [i0] = .ok [pal.get ⟨i0, hi0lt⟩] := by
    rw [seqMap, dif_pos hi0lt]
    rfl
  rw [hsel]
  show (if ((_encode_palette [pal.get ⟨i0, hi0lt⟩]).length == 1
      && ((_encode_palette [pal.get ⟨i0, hi0lt⟩]).getD 0 ⟨"", []⟩).name == "minecraft:air")
      = true then
      (Except.ok none : Except DErr (Option SectionOut))
    else .ok (some ⟨y, encode_long_array (localIdx v y),
      _encode_palette [pal.get ⟨i0, hi0lt⟩]⟩)) = .ok none
  obtain ⟨hns, hbn, _⟩ := (eqBlock_iff _ _).mp hi0air
  rw [hgetDeq i0 hi0lt] at hns hbn
  have hcond : ((_encode_palette [pal.get ⟨i0, hi0lt⟩]).length == 1
      && ((_encode_palette [pal.get ⟨i0, hi0lt⟩]).getD 0 ⟨"", []⟩).name == "minecraft:air")
      = true := by
    show (((1 : Nat) == 1)
      && ((pal.get ⟨i0, hi0lt⟩).ns ++ ":" ++ (pal.get ⟨i0, hi0lt⟩).baseName
            == "minecraft:air")) = true
    rw [hns, hbn]
    decide
  rw [if_pos hcond]

theorem ravel_air : ravelSlab airVolume 0 = List.replicate 4096 0 := by
  rw [ravelSlab, sliceSlab, airVolume, List.map_replicate, List.drop_zero,
    List.take_replicate, show min 16 256 = 16 from rfl, List.map_replicate,
    flatten_rep_rep, flatten_rep_rep]

theorem all_replicate_of {p : α → Bool} {x : α} (h : p x = true) (n : Nat) :
    (List.replicate n x).all p = true := by
  induction n with
  | zero => rfl
  | succ n ih =>
    rw [List.replicate_succ, List.all_cons, h, ih]
    rfl

theorem rect3_air : rect3 16 256 16 airVolume = true := by
  rw [rect3, airVolume]
  have hplane : ((List.replicate 256 (List.replicate 16 (0 : Nat))).length == 256
      && (List.replicate 256 (List.replicate 16 (0 : Nat))).all
        (fun row => row.length == 16)) = true := by
    rw [List.length_replicate,
      all_replicate_of (p := fun (row : List Nat) => row.length == 16)
        (x := List.replicate 16 (0 : Nat)) (by simp) 256]
    rfl
  rw [List.length_replicate,
    all_replicate_of (p := fun (plane : List (List Nat)) => plane.length == 256
        && plane.all (fun row => row.length == 16))
      (x := List.replicate 256 (List.replicate 16 (0 : Nat))) hplane 16]
  rfl

/-- Witness for `all_air_slab_omitted` on the all-air volume over the
one-entry air palette. -/
theorem all_air_slab_omitted_witness :
    rect3 16 256 16 airVolume = true ∧ (0 : Nat) < 16 ∧
    List.Pairwise (fun a b => eqBlock a b = false) [airBlock] ∧
    (∀ i ∈ ravelSlab airVolume 0, i < ([airBlock] : List Block).length
      ∧ eqBlock (([airBlock] : List Block).getD i airBlock) airBlock = true) ∧
    encodeSlab airVolume [airBlock] 0 = .ok none := by
  have hair : ∀ i ∈ ravelSlab airVolume 0, i < ([airBlock] : List Block).length
      ∧ eqBlock (([airBlock] : List Block).getD i airBlock) airBlock = true := by
    rw [ravel_air]
    intro i hi
    rw [List.eq_of_mem_replicate hi]
    exact ⟨by decide, by decide⟩
  exact ⟨rect3_air, by decide, by simp, hair,
    all_air_slab_omitted airVolume [airBlock] 0 rect3_air (by decide) (by simp) hair⟩


/-! ## C10 -/

theorem bind_ok_inv {x : Except DErr α} {f : α → Except DErr β} {b : β}
    (h : x >>= f = .ok b) : ∃ a, x = .ok a ∧ f a = .ok b := by
  cases x with
  | error e => rw [ebind_err] at h; cases h
  | ok a => rw [ebind_ok] at h; exact ⟨a, rfl, h⟩

theorem reqField_isSome {o : Option α} {fld : String} {a : α}
    (h : reqField o fld = .ok a) : o.isSome := by
  cases o with
  | none => cases h
  | some x => rfl

theorem seqMap_ok_forall {f : α → Except DErr β} {l : List α} {out : List β}
    (h : seqMap f l = .ok out) : ∀ a ∈ l, ∃ b, f a = .ok b := by
  induction l generalizing out with
  | nil => intro a ha; simp at ha
  | cons c cs ih =>
    rw [seqMap] at h
    cases hfc : f c with
    | error e => rw [hfc] at h; simp [ebind_err] at h
    | ok b0 =>
      rw [hfc, ebind_ok] at h
      cases hrest : seqMap f cs with
      | error e => rw [hrest] at h; simp [ebind_err] at h
      | ok bs =>
        intro a ha
        rcases List.mem_cons.mp ha with rfl | ha
        · exact ⟨b0, hfc⟩
        · exact ih hrest a ha

theorem lightMap_ok_isSome {g : SectionT → Option Tag} {fld : String}
    {sections : List SectionT} {m : List (Nat × Tag)}
    (h : seqMap (fun s => (reqField (g s) fld).map (fun t => (s.y, t))) sections = .ok m) :
    ∀ s ∈ sections, (g s).isSome := by
  intro s hs
  obtain ⟨b, hb⟩ := seqMap_ok_forall h s hs
  cases ho : g s with
  | none =>
    rw [ho] at hb
    cases hb
  | some t => rfl

/-- C10 (confirmed): whenever `decode` succeeds, every auxiliary `Level`
field it extracts was present in the input — nothing is defaulted on the
decode side — while on the encode side an empty bag yields exactly the
documented defaults for the same fields. -/
theorem decode_requires_fields_encode_defaults :
    (∀ d, DecodeRequiresFields d) ∧
    encodeAuxFields []
      = [("TileTicks", Tag.list []),
         ("LastUpdate", Tag.i64 0),
         ("InhabitedTime", Tag.i64 0),
         ("Status", Tag.str "postprocessed"),
         ("Heightmaps", Tag.comp
           [("MOTION_BLOCKING", Tag.longArr (List.replicate 36 0)),
            ("MOTION_BLOCKING_NO_LEAVES", Tag.longArr (List.replicate 36 0)),
            ("OCEAN_FLOOR", Tag.longArr (List.replicate 36 0)),
            ("OCEAN_FLOOR_WG", Tag.longArr (List.replicate 36 0)),
            ("WORLD_SURFACE", Tag.longArr (List.replicate 36 0)),
            ("WORLD_SURFACE_WG", Tag.longArr (List.replicate 36 0))]),
         ("ToBeTicked", Tag.list (List.replicate 16 (Tag.list []))),
         ("PostProcessing", Tag.list (List.replicate 16 (Tag.list []))),
         ("Structures", Tag.comp []),
         ("LiquidTicks", Tag.list []),
         ("LiquidsToBeTicked", Tag.list (List.replicate 16 (Tag.list [])))] := by
  refine ⟨?_, rfl⟩
  intro d
  unfold DecodeRequiresFields
  cases hd : decode d with
  | error e => exact trivial
  | ok r =>
    unfold decode at hd
    obtain ⟨cx, hcx, hd⟩ := bind_ok_inv hd
    obtain ⟨cz, hcz, hd⟩ := bind_ok_inv hd
    obtain ⟨bp, hbp, hd⟩ := bind_ok_inv hd
    obtain ⟨blocks, palette⟩ := bp
    obtain ⟨blMap, hbl, hd⟩ := bind_ok_inv hd
    obtain ⟨slMap, hsl, hd⟩ := bind_ok_inv hd
    obtain ⟨tt, htt, hd⟩ := bind_ok_inv hd
    obtain ⟨lu, hlu, hd⟩ := bind_ok_inv hd
    obtain ⟨bio, hbio, hd⟩ := bind_ok_inv hd
    obtain ⟨it, hit, hd⟩ := bind_ok_inv hd
    obtain ⟨st, hst, hd⟩ := bind_ok_inv hd
    obtain ⟨hm, hhm, hd⟩ := bind_ok_inv hd
    obtain ⟨tbt, htbt, hd⟩ := bind_ok_inv hd
    obtain ⟨pp, hpp, hd⟩ := bind_ok_inv hd
    obtain ⟨strs, hstrs, hd⟩ := bind_ok_inv hd
    obtain ⟨lt, hlt, hd⟩ := bind_ok_inv hd
    obtain ⟨ltbt, hltbt, hd⟩ := bind_ok_inv hd
    obtain ⟨ents, hents, hd⟩ := bind_ok_inv hd
    refine ⟨reqField_isSome htt, reqField_isSome hlu, reqField_isSome hbio,
      reqField_isSome hit, reqField_isSome hst, reqField_isSome hhm,
      reqField_isSome htbt, reqField_isSome hpp, reqField_isSome hstrs,
      reqField_isSome hlt, reqField_isSome hltbt, reqField_isSome hents, ?_⟩
    intro s hs
    unfold decodeBlockLightMap at hbl
    unfold decodeSkyLightMap at hsl
    exact ⟨lightMap_ok_isSome hbl s hs, lightMap_ok_isSome hsl s hs⟩




/-! ## C3: layout of the encode ravel versus the decode unravel -/

theorem chunkFuel_succ_cons (f n : Nat) (x : α) (l : List α) :
    chunkFuel (f + 1) n (x :: l) = (x :: l).take n :: chunkFuel f n ((x :: l).drop n) := rfl

theorem take16_cons (a : α) (l : List α) : List.take 16 (a :: l) = a :: List.take 15 l := rfl

theorem drop16_cons (a : α) (l : List α) : List.drop 16 (a :: l) = List.drop 15 l := rfl

theorem slice_c3 :
    sliceSlab c3Volume 0
      = List.replicate 16 (List.replicate 16 0) ::
        ((1 :: List.replicate 15 0) :: List.replicate 15 (List.replicate 16 0)) ::
        List.replicate 14 (List.replicate 16 (List.replicate 16 0)) := by
  have htk : List.take 16 (((1 : Nat) :: List.replicate 15 0) :: List.replicate 255 (List.replicate 16 0))
      = ((1 : Nat) :: List.replicate 15 0) :: List.replicate 15 (List.replicate 16 0) := by
    rw [take16_cons, List.take_replicate, show min 15 255 = 15 from rfl]
  rw [sliceSlab, c3Volume]
  simp only [List.map_cons, List.map_replicate, Nat.zero_mul, List.drop_zero]
  rw [List.take_replicate, htk]
  simp only [show min 16 256 = 16 from rfl]

theorem ravel_c3 :
    ravelSlab c3Volume 0 = List.replicate 256 0 ++ 1 :: List.replicate 3839 0 := by
  rw [ravelSlab, slice_c3]
  simp only [List.map_cons, List.map_replicate, List.flatten_cons, flatten_rep_rep]
  norm_num [List.cons_append, List.append_assoc, ← List.replicate_add]

theorem chunkFuel_rep_append (k : Nat) : ∀ (f n : Nat) (x : α) (rest : List α),
    0 < n → k ≤ f →
    chunkFuel f n (List.replicate (k * n) x ++ rest)
      = List.replicate k (List.replicate n x) ++ chunkFuel (f - k) n rest := by
  induction k with
  | zero => intro f n x rest _ _; simp
  | succ k ih =>
    intro f n x rest hn hf
    match f, hf with
    | f + 1, hf =>
      obtain ⟨m, rfl⟩ : ∃ m, n = m + 1 := ⟨n - 1, by omega⟩
      have hrep : List.replicate ((k + 1) * (m + 1)) x ++ rest
          = x :: (List.replicate m x ++ (List.replicate (k * (m + 1)) x ++ rest)) := by
        rw [show (k + 1) * (m + 1) = (m + 1) + k * (m + 1) by ring, List.replicate_add,
          List.replicate_succ, List.cons_append, List.cons_append, List.append_assoc]
      rw [hrep]
      have hstep := chunkFuel_succ_cons f (m + 1) x
        (List.replicate m x ++ (List.replicate (k * (m + 1)) x ++ rest))
      rw [hstep, List.take_succ_cons, List.drop_succ_cons,
        List.take_left' (by simp), List.drop_left' (by simp),
        ih f (m + 1) x rest hn (Nat.succ_le_succ_iff.mp hf),
        show f + 1 - (k + 1) = f - k by omega, List.replicate_succ, List.replicate_succ,
        List.cons_append]

theorem to3D_c3 :
    to3D (List.replicate 256 0 ++ 1 :: List.replicate 3839 0)
      = List.replicate 16 (List.replicate 16 0) ::
        ((1 :: List.replicate 15 0) :: List.replicate 15 (List.replicate 16 0)) ::
        List.replicate 14 (List.replicate 16 (List.replicate 16 0)) := by
  have hinner : chunkList 16 (List.replicate 256 (0 : Nat) ++ 1 :: List.replicate 3839 0)
      = List.replicate 16 (List.replicate 16 0)
        ++ (1 :: List.replicate 15 0) :: List.replicate 239 (List.replicate 16 0) := by
    have hlen : (List.replicate 256 (0 : Nat) ++ 1 :: List.replicate 3839 0).length = 4096 := by
      rw [List.length_append, List.length_replicate, List.length_cons, List.length_replicate]
    rw [chunkList, hlen,
      show (256 : Nat) = 16 * 16 from rfl,
      chunkFuel_rep_append 16 4096 16 0 _ (by norm_num) (by norm_num),
      show (4096 - 16 : Nat) = 4079 + 1 from rfl,
      chunkFuel_succ_cons, take16_cons, drop16_cons,
      List.take_replicate, List.drop_replicate,
      show min 15 3839 = 15 from rfl, show (3839 - 15 : Nat) = 239 * 16 from rfl,
      chunkFuel_replicate 239 4079 16 0 (by norm_num) (by norm_num)]
  rw [to3D, hinner]
  have houter1 := chunkFuel_succ_cons 255 16 (List.replicate 16 (0 : Nat))
    (List.replicate 15 (List.replicate 16 0)
      ++ (1 :: List.replicate 15 0) :: List.replicate 239 (List.replicate 16 0))
  have hlen2 : (List.replicate 16 (List.replicate 16 (0 : Nat))
      ++ (1 :: List.replicate 15 0) :: List.replicate 239 (List.replicate 16 0)).length = 256 := by
    rw [List.length_append, List.length_replicate, List.length_cons, List.length_replicate]
  rw [chunkList, hlen2,
    show (List.replicate 16 (List.replicate 16 (0 : Nat)))
      = List.replicate 16 (0 : Nat) :: List.replicate 15 (List.replicate 16 0) from rfl,
    List.cons_append, show (256 : Nat) = 255 + 1 from rfl, houter1,
    take16_cons, drop16_cons,
    List.take_left' (by simp), List.drop_left' (by simp),
    show (255 : Nat) = 254 + 1 from rfl, chunkFuel_succ_cons,
    take16_cons, drop16_cons, List.take_replicate, List.drop_replicate,
    show min 15 239 = 15 from rfl, show (239 - 15 : Nat) = 14 * 16 from rfl,
    chunkFuel_replicate 14 254 16 _ (by norm_num) (by norm_num)]
  rfl

theorem buildRaw_c3 :
    buildRaw [(0, List.replicate 256 0 ++ 1 :: List.replicate 3839 0)]
      = (List.replicate 16 (List.replicate 16 0) ::
          ((1 :: List.replicate 15 0) :: List.replicate 15 (List.replicate 16 0)) ::
          List.replicate 14 (List.replicate 16 (List.replicate 16 0)))
        ++ List.replicate 240 (List.replicate 16 (List.replicate 16 0)) := by
  rw [buildRaw]
  have hlast0 : lastAssign [(0, List.replicate 256 0 ++ 1 :: List.replicate 3839 0)] 0
      = List.replicate 256 0 ++ 1 :: List.replicate 3839 0 := rfl
  have hmap : (List.range 16).map
      (fun yI => to3D (lastAssign [(0, List.replicate 256 0 ++ 1 :: List.replicate 3839 0)] yI))
      = to3D (List.replicate 256 0 ++ 1 :: List.replicate 3839 0)
        :: List.replicate 15 (to3D (List.replicate 4096 0)) := by
    rw [show List.range 16 = 0 :: [1, 2, 3, 4, 5, 6, 7, 8, 9, 10, 11, 12, 13, 14, 15] from rfl,
      List.map_cons, hlast0]
    congr 1
  rw [hmap, to3D_replicate, List.flatten_cons, flatten_rep_rep, to3D_c3]

theorem rect3_raw_c3 :
    rect3 256 16 16
      ((List.replicate 16 (List.replicate 16 0) ::
          ((1 :: List.replicate 15 0) :: List.replicate 15 (List.replicate 16 0)) ::
          List.replicate 14 (List.replicate 16 (List.replicate 16 0)))
        ++ List.replicate 240 (List.replicate 16 (List.replicate 16 0))) = true := by
  have hap : (fun (plane : List (List Nat)) =>
      (plane.length == 16) && plane.all (fun row => row.length == 16))
      (List.replicate 16 (List.replicate 16 0)) = true := by decide
  rw [rect3, Bool.and_eq_true]
  refine ⟨?_, ?_⟩
  · rw [List.length_append, List.length_cons, List.length_cons, List.length_replicate,
      List.length_replicate]
    decide
  rw [List.all_append, List.all_cons, List.all_cons,
    all_replicate_of (x := List.replicate 16 (List.replicate 16 (0 : Nat))) hap 14,
    all_replicate_of (x := List.replicate 16 (List.replicate 16 (0 : Nat))) hap 240]
  decide

/-- C3 (code_bug): the flat slab as `_encode_blocks` ravels it, read back
through `_decode_blocks`' reshape, stacking and axis reordering.  In
`c3Volume` the only non-air voxel sits at public position (1, 0, 0) and the
encode ravel places it at flat slab position 256; the decode path
(reshape to (16, 16, 16), stack, swap axes) reads flat position 256 back
into public position (0, 1, 0).  So re-decoding the encoded slab yields a
volume holding the voxel at (0, 1, 0) and air at (1, 0, 0): the round trip
does not preserve per-voxel descriptors. -/
theorem encode_layout_vs_decode_layout :
    get3 c3Volume 1 0 0 = 1 ∧ get3 c3Volume 0 1 0 = 0 ∧
    (ravelSlab c3Volume 0).getD 256 0 = 1 ∧
    get3 (swapStorageToPublic (buildRaw [(0, ravelSlab c3Volume 0)])) 0 1 0 = 1 ∧
    get3 (swapStorageToPublic (buildRaw [(0, ravelSlab c3Volume 0)])) 1 0 0 = 0 := by
  have hswap := fun x y z hx hy hz => swapStorage_get _ rect3_raw_c3 x y z hx hy hz
  refine ⟨by decide, by decide, ?_, ?_, ?_⟩
  · rw [ravel_c3]
    decide
  · rw [ravel_c3, buildRaw_c3, hswap 0 1 0 (by decide) (by decide) (by decide)]
    decide
  · rw [ravel_c3, buildRaw_c3, hswap 1 0 0 (by decide) (by decide) (by decide)]
    decide

end Anvil2
